import Mathlib

/-!
Shallow embedding of the DummyBank ledger store (src/bank.py).

The store state is a pair of an account mapping (modelled as an association
list with Python-dict update semantics: replace in place if the key exists,
append otherwise) and an append-only transaction log.  Monetary amounts
(Python floats) are modelled as exact rationals.  Timestamps are opaque
ISO-8601 strings supplied by the caller (the code reads the wall clock);
Python compares them lexicographically when sorting history, which the
String linear order models.  The SHA-256 password hash is modelled as an
arbitrary function parameter hashPw, since no claim depends on the concrete
digest.
-/

namespace DummyBank

/-- Monetary amount: exact rational stand-in for the Python float. -/
abbrev Money := ℚ

/-- One account record, the value stored in accounts.json. -/
structure Account where
  account_number : String
  name : String
  balance : Money
  password_hash : String
  created_date : String
  status : String
deriving Repr, DecidableEq

/-- One transaction record, an element of transactions.json. -/
structure Transaction where
  id : Nat
  account_number : String
  transaction_type : String
  amount : Money
  description : String
  related_account : Option String
  timestamp : String
  date : String
deriving Repr, DecidableEq

/-- The accounts document: a JSON object keyed by account number. -/
abbrev Accounts := List (String × Account)

/-- Dictionary lookup: accounts.get(key) / accounts[key]. -/
def lookupAcc : Accounts → String → Option Account
  | [], _ => none
  | (k, v) :: rest, key => if k = key then some v else lookupAcc rest key

/-- Dictionary update accounts[key] = v: replace in place, or append. -/
def setAcc : Accounts → String → Account → Accounts
  | [], key, v => [(key, v)]
  | (k, w) :: rest, key, v =>
      if k = key then (key, v) :: rest else (k, w) :: setAcc rest key v

/-- Dictionary membership test: key in accounts. -/
def memAcc (accounts : Accounts) (key : String) : Bool :=
  (lookupAcc accounts key).isSome

/-- The whole persisted store: accounts.json plus transactions.json. -/
structure Bank where
  accounts : Accounts
  transactions : List Transaction
deriving Repr, DecidableEq

/-- Decimal digit to its character, as Python str renders digits. -/
def digitChar : Nat → Char
  | 0 => '0' | 1 => '1' | 2 => '2' | 3 => '3' | 4 => '4'
  | 5 => '5' | 6 => '6' | 7 => '7' | 8 => '8' | _ => '9'

/-- Little-endian decimal digits of n, with enough fuel to finish. -/
def toDigitsRev : Nat → Nat → List Nat
  | 0, _ => []
  | fuel + 1, n => if n = 0 then [] else n % 10 :: toDigitsRev fuel (n / 10)

/-- Decimal rendering of a natural number, modelling Python str(n). -/
def natToStr (n : Nat) : String :=
  if n = 0 then "0" else ((toDigitsRev n n).reverse.map digitChar).asString

/-- Bounded scan modelling the while loop of _generate_account_number:
while str(account_num) in accounts: account_num += 1.  The fuel
(number of accounts plus one) provably suffices to reach a free number. -/
def genAccountNumFrom (accounts : Accounts) : Nat → Nat → String
  | 0, n => natToStr n
  | fuel + 1, n =>
      if memAcc accounts (natToStr n) then genAccountNumFrom accounts fuel (n + 1)
      else natToStr n

/-- Fixed base of the account-number scan in _generate_account_number. -/
def accountNumberBase : Nat := 1000000001

/-- Model of _generate_account_number: first unused decimal number upward from the base. -/
def _generate_account_number (accounts : Accounts) : String :=
  genAccountNumFrom accounts (accounts.length + 1) accountNumberBase

variable (hashPw : String → String)

/-- authenticate: false on unknown account, else compare stored hash. -/
def authenticate (b : Bank) (account_number password : String) : Bool :=
  match lookupAcc b.accounts account_number with
  | none => false
  | some account => account.password_hash == hashPw password

/-- Model of _record_transaction: append one record whose id is the prior log length plus one. -/
def _record_transaction (b : Bank) (account_number transaction_type : String)
    (amount : Money) (description : String) (related_account : Option String)
    (timestamp date : String) : Bank :=
  { b with transactions := b.transactions ++
      [{ id := b.transactions.length + 1
         account_number := account_number
         transaction_type := transaction_type
         amount := amount
         description := description
         related_account := related_account
         timestamp := timestamp
         date := date }] }

/-- Result record of create_account. -/
structure CreateOk where
  account_number : String
  name : String
  balance : Money
  status : String
deriving Repr, DecidableEq

/-- Result record of deposit and withdraw. -/
structure OpOk where
  account_number : String
  transaction_type : String
  amount : Money
  old_balance : Money
  new_balance : Money
  status : String
deriving Repr, DecidableEq

/-- Result record of transfer. -/
structure TransferOk where
  from_account : String
  to_account : String
  amount : Money
  from_old_balance : Money
  from_new_balance : Money
  to_old_balance : Money
  to_new_balance : Money
  status : String
deriving Repr, DecidableEq

/-- Result record of get_transaction_history. -/
structure HistoryOk where
  account_number : String
  transactions : List Transaction
  total_transactions : Nat
  status : String
deriving Repr, DecidableEq

/-- create_account: raises (error) on negative deposit; else stores the new
account under a fresh number and records the initial deposit when positive.
The timestamps created_date, timestamp and date are caller-supplied clock
readings. -/
def create_account (b : Bank) (name : String) (initial_deposit : Money)
    (password : String) (created_date timestamp date : String) :
    Except String CreateOk × Bank :=
  if initial_deposit < 0 then (.error "Initial deposit cannot be negative", b)
  else
    let account_number := _generate_account_number b.accounts
    let account : Account :=
      { account_number := account_number
        name := name
        balance := initial_deposit
        password_hash := hashPw password
        created_date := created_date
        status := "active" }
    let b1 : Bank := { b with accounts := setAcc b.accounts account_number account }
    let b2 : Bank :=
      if initial_deposit > 0 then
        _record_transaction b1 account_number "deposit" initial_deposit
          "Initial deposit" (some account_number) timestamp date
      else b1
    (.ok { account_number := account_number
           name := name
           balance := initial_deposit
           status := "Account created successfully" }, b2)

/-- deposit: validate amount, authenticate, add to the balance, record. -/
def deposit (b : Bank) (account_number : String) (amount : Money)
    (password description : String) (timestamp date : String) :
    Except String OpOk × Bank :=
  if amount ≤ 0 then (.error "Deposit amount must be positive", b)
  else if ¬ authenticate hashPw b account_number password then
    (.error "Invalid account number or password", b)
  else
    match lookupAcc b.accounts account_number with
    | none => (.error "Invalid account number or password", b)
    | some account =>
      let old_balance := account.balance
      let account2 := { account with balance := account.balance + amount }
      let b1 : Bank := { b with accounts := setAcc b.accounts account_number account2 }
      let b2 := _record_transaction b1 account_number "deposit" amount description
        (some account_number) timestamp date
      (.ok { account_number := account_number
             transaction_type := "deposit"
             amount := amount
             old_balance := old_balance
             new_balance := account2.balance
             status := "success" }, b2)

/-- withdraw: validate amount, authenticate, check funds, subtract, record. -/
def withdraw (b : Bank) (account_number : String) (amount : Money)
    (password description : String) (timestamp date : String) :
    Except String OpOk × Bank :=
  if amount ≤ 0 then (.error "Withdrawal amount must be positive", b)
  else if ¬ authenticate hashPw b account_number password then
    (.error "Invalid account number or password", b)
  else
    match lookupAcc b.accounts account_number with
    | none => (.error "Invalid account number or password", b)
    | some account =>
      if account.balance < amount then (.error "Insufficient funds", b)
      else
        let old_balance := account.balance
        let account2 := { account with balance := account.balance - amount }
        let b1 : Bank := { b with accounts := setAcc b.accounts account_number account2 }
        let b2 := _record_transaction b1 account_number "withdrawal" amount description
          (some account_number) timestamp date
        (.ok { account_number := account_number
               transaction_type := "withdrawal"
               amount := amount
               old_balance := old_balance
               new_balance := account2.balance
               status := "success" }, b2)

/-- transfer: validate, authenticate the source, require the destination,
check funds, move the amount in one update of the account mapping, then
record the transfer_out and transfer_in entries in that order. -/
def transfer (b : Bank) (from_account to_account : String) (amount : Money)
    (password description : String) (ts1 d1 ts2 d2 : String) :
    Except String TransferOk × Bank :=
  if amount ≤ 0 then (.error "Transfer amount must be positive", b)
  else if from_account = to_account then
    (.error "Cannot transfer to the same account", b)
  else if ¬ authenticate hashPw b from_account password then
    (.error "Invalid account number or password", b)
  else if ¬ memAcc b.accounts to_account then
    (.error "Destination account does not exist", b)
  else
    match lookupAcc b.accounts from_account, lookupAcc b.accounts to_account with
    | some from_acc, some to_acc =>
      if from_acc.balance < amount then (.error "Insufficient funds", b)
      else
        let from_acc2 := { from_acc with balance := from_acc.balance - amount }
        let to_acc2 := { to_acc with balance := to_acc.balance + amount }
        let accounts2 := setAcc (setAcc b.accounts from_account from_acc2) to_account to_acc2
        let b1 : Bank := { b with accounts := accounts2 }
        let b2 := _record_transaction b1 from_account "transfer_out" amount
          (description ++ " to " ++ to_account) (some to_account) ts1 d1
        let b3 := _record_transaction b2 to_account "transfer_in" amount
          (description ++ " from " ++ from_account) (some from_account) ts2 d2
        (.ok { from_account := from_account
               to_account := to_account
               amount := amount
               from_old_balance := from_acc.balance
               from_new_balance := from_acc2.balance
               to_old_balance := to_acc.balance
               to_new_balance := to_acc2.balance
               status := "success" }, b3)
    | _, _ => (.error "Invalid account number or password", b)

/-- Sort key of get_transaction_history: timestamp descending; the string
order is the lexicographic order Python uses on ISO timestamps. -/
def tsDesc (x y : Transaction) : Bool :=
  decide (y.timestamp ≤ x.timestamp)

/-- Default of the limit parameter of get_transaction_history. -/
def limitDefault : Int := 10

/-- get_transaction_history: authenticate, filter the log to the account,
stable-sort by timestamp descending, truncate to limit when limit > 0. -/
def get_transaction_history (b : Bank) (account_number password : String)
    (limit : Int) : Except String HistoryOk :=
  if ¬ authenticate hashPw b account_number password then
    .error "Invalid account number or password"
  else
    let account_transactions :=
      b.transactions.filter (fun t => t.account_number == account_number)
    let sorted := account_transactions.mergeSort tsDesc
    let limited := if limit > 0 then sorted.take limit.toNat else sorted
    .ok { account_number := account_number
          transactions := limited
          total_transactions := limited.length
          status := "success" }

/-- States of the store reachable from an empty store by committed mutating
operations (create_account, deposit, withdraw, transfer) with arbitrary
arguments and clock readings. -/
inductive Reachable (hashPw : String → String) : Bank → Prop
  | init : Reachable hashPw ⟨[], []⟩
  | create (b : Bank) (name : String) (dep : Money) (pw cd ts d : String) :
      Reachable hashPw b →
      Reachable hashPw (create_account hashPw b name dep pw cd ts d).2
  | dep (b : Bank) (an : String) (amt : Money) (pw desc ts d : String) :
      Reachable hashPw b →
      Reachable hashPw (deposit hashPw b an amt pw desc ts d).2
  | wd (b : Bank) (an : String) (amt : Money) (pw desc ts d : String) :
      Reachable hashPw b →
      Reachable hashPw (withdraw hashPw b an amt pw desc ts d).2
  | xfer (b : Bank) (fa ta : String) (amt : Money) (pw desc ts1 d1 ts2 d2 : String) :
      Reachable hashPw b →
      Reachable hashPw (transfer hashPw b fa ta amt pw desc ts1 d1 ts2 d2).2

/-- Invariant of claim C2: every stored balance is non-negative. -/
def BalancesNonneg (b : Bank) : Prop :=
  ∀ p ∈ b.accounts, 0 ≤ p.2.balance

/-- Invariant behind claim C9: the transaction at log position i has id i + 1. -/
def IdsSequential (b : Bank) : Prop :=
  ∀ i (hi : i < b.transactions.length), (b.transactions.get ⟨i, hi⟩).id = i + 1

/-- Concrete stand-in for the SHA-256 digest in sample evaluations. -/
def idHash : String → String := fun s => s

/-- The empty store both data files start from. -/
def bank0 : Bank := ⟨[], []⟩

/-- Sample store after one account creation. -/
def bank1 : Bank := (create_account idHash bank0 "Alice" 1000 "pw" "T1" "T1" "D1").2

/-- Sample store after a second account creation. -/
def bank2 : Bank := (create_account idHash bank1 "Bob" 500 "pw2" "T2" "T2" "D2").2

/-- Sample account used by the history counterexample. -/
def histAcc : Account :=
  { account_number := "1000000001"
    name := "Alice"
    balance := 100
    password_hash := "pw"
    created_date := "T0"
    status := "active" }

/-- Sample store whose single account owns eleven logged transactions. -/
def histBank : Bank :=
  { accounts := [("1000000001", histAcc)]
    transactions := (List.range 11).map (fun i =>
      { id := i + 1
        account_number := "1000000001"
        transaction_type := "deposit"
        amount := 1
        description := "D"
        related_account := some "1000000001"
        timestamp := natToStr (i + 1)
        date := "D0" }) }

/-- Floor of log2: the largest e with 2^e ≤ m, for m ≥ 1 (fuel-based). -/
def log2Floor : Nat → Nat → Nat
  | 0, _ => 0
  | fuel + 1, m => if m ≤ 1 then 0 else log2Floor fuel (m / 2) + 1

/-- Smallest k at or above the given start with d ≤ n * 2^k (fuel-based). -/
def expUp (n d : Nat) : Nat → Nat → Nat
  | 0, k => k
  | fuel + 1, k => if d ≤ n * 2 ^ k then k else expUp n d fuel (k + 1)

/-- Floor of the base-2 logarithm of the positive rational n / d. -/
def qlog2n (n d : Nat) : Int :=
  if d ≤ n then (log2Floor (n / d) (n / d) : Int)
  else -(expUp n d d 1 : Int)

/-- Round the positive rational n / d to the nearest integer multiple m of
2^k, ties to even, and return m * 2^k.  The scaled value (n / d) / 2^k is
the integer fraction sn / sd below; its floor and remainder classify the
fractional part against one half by comparing 2 * remainder with sd. -/
def roundTiesEvenPos (n : Int) (d : Nat) (k : Int) : ℚ :=
  let sn : Int := if 0 ≤ k then n else n * 2 ^ (-k).toNat
  let sd : Int := if 0 ≤ k then (d : Int) * 2 ^ k.toNat else (d : Int)
  let fl : Int := Int.ediv sn sd
  let r : Int := Int.emod sn sd
  let m : Int :=
    if 2 * r < sd then fl
    else if sd < 2 * r then fl + 1
    else if fl % 2 = 0 then fl else fl + 1
  if 0 ≤ k then mkRat (m * 2 ^ k.toNat) 1 else mkRat m (2 ^ (-k).toNat)

/-- IEEE-754 binary64 rounding, round to nearest with ties to even: the unit
in the last place is 2^(floor(log2 x) - 52), floored at the subnormal limit
2^(-1074).  This is the rounding the source's Python float arithmetic
applies after every addition and subtraction.  Overflow past the largest
finite double is not modelled; every value below stays far inside the
finite range, where this is exact double semantics. -/
def f64round (x : ℚ) : ℚ :=
  if x.num = 0 then 0
  else if 0 < x.num then
    roundTiesEvenPos x.num x.den (max (qlog2n x.num.toNat x.den - 52) (-1074))
  else
    -roundTiesEvenPos (-x.num) x.den (max (qlog2n (-x.num).toNat x.den - 52) (-1074))

/-- Double addition, as the source's balance += amount computes it: the
exact rational sum (formed on numerators and denominators) then rounded. -/
def f64add (x y : ℚ) : ℚ :=
  f64round (mkRat (x.num * y.den + y.num * x.den) (x.den * y.den))

/-- Double subtraction, as the source's balance -= amount computes it: the
exact rational difference then rounded. -/
def f64sub (x y : ℚ) : ℚ :=
  f64round (mkRat (x.num * y.den - y.num * x.den) (x.den * y.den))

/-- deposit with the balance update rounded to binary64, exactly as the
source's float += does; amounts are taken already binary64-representable,
as Python float inputs are.  Identical to deposit except for the rounding. -/
def depositF (b : Bank) (account_number : String) (amount : Money)
    (password description : String) (timestamp date : String) :
    Except String OpOk × Bank :=
  if amount ≤ 0 then (.error "Deposit amount must be positive", b)
  else if ¬ authenticate hashPw b account_number password then
    (.error "Invalid account number or password", b)
  else
    match lookupAcc b.accounts account_number with
    | none => (.error "Invalid account number or password", b)
    | some account =>
      let old_balance := account.balance
      let account2 := { account with balance := f64add account.balance amount }
      let b1 : Bank := { b with accounts := setAcc b.accounts account_number account2 }
      let b2 := _record_transaction b1 account_number "deposit" amount description
        (some account_number) timestamp date
      (.ok { account_number := account_number
             transaction_type := "deposit"
             amount := amount
             old_balance := old_balance
             new_balance := account2.balance
             status := "success" }, b2)

/-- withdraw with the balance update rounded to binary64, exactly as the
source's float -= does.  Identical to withdraw except for the rounding. -/
def withdrawF (b : Bank) (account_number : String) (amount : Money)
    (password description : String) (timestamp date : String) :
    Except String OpOk × Bank :=
  if amount ≤ 0 then (.error "Withdrawal amount must be positive", b)
  else if ¬ authenticate hashPw b account_number password then
    (.error "Invalid account number or password", b)
  else
    match lookupAcc b.accounts account_number with
    | none => (.error "Invalid account number or password", b)
    | some account =>
      if account.balance < amount then (.error "Insufficient funds", b)
      else
        let old_balance := account.balance
        let account2 := { account with balance := f64sub account.balance amount }
        let b1 : Bank := { b with accounts := setAcc b.accounts account_number account2 }
        let b2 := _record_transaction b1 account_number "withdrawal" amount description
          (some account_number) timestamp date
        (.ok { account_number := account_number
               transaction_type := "withdrawal"
               amount := amount
               old_balance := old_balance
               new_balance := account2.balance
               status := "success" }, b2)

/-- transfer with both balance updates rounded to binary64, exactly as the
source's float -= and += do.  Identical to transfer except for the rounding. -/
def transferF (b : Bank) (from_account to_account : String) (amount : Money)
    (password description : String) (ts1 d1 ts2 d2 : String) :
    Except String TransferOk × Bank :=
  if amount ≤ 0 then (.error "Transfer amount must be positive", b)
  else if from_account = to_account then
    (.error "Cannot transfer to the same account", b)
  else if ¬ authenticate hashPw b from_account password then
    (.error "Invalid account number or password", b)
  else if ¬ memAcc b.accounts to_account then
    (.error "Destination account does not exist", b)
  else
    match lookupAcc b.accounts from_account, lookupAcc b.accounts to_account with
    | some from_acc, some to_acc =>
      if from_acc.balance < amount then (.error "Insufficient funds", b)
      else
        let from_acc2 := { from_acc with balance := f64sub from_acc.balance amount }
        let to_acc2 := { to_acc with balance := f64add to_acc.balance amount }
        let accounts2 := setAcc (setAcc b.accounts from_account from_acc2) to_account to_acc2
        let b1 : Bank := { b with accounts := accounts2 }
        let b2 := _record_transaction b1 from_account "transfer_out" amount
          (description ++ " to " ++ to_account) (some to_account) ts1 d1
        let b3 := _record_transaction b2 to_account "transfer_in" amount
          (description ++ " from " ++ from_account) (some from_account) ts2 d2
        (.ok { from_account := from_account
               to_account := to_account
               amount := amount
               from_old_balance := from_acc.balance
               from_new_balance := from_acc2.balance
               to_old_balance := to_acc.balance
               to_new_balance := to_acc2.balance
               status := "success" }, b3)
    | _, _ => (.error "Invalid account number or password", b)

/-- The binary64 double nearest 0.1, which the source stores for 0.1. -/
def dbl01 : ℚ := mkRat 3602879701896397 36028797018963968

/-- The binary64 double nearest 0.2, which the source stores for 0.2. -/
def dbl02 : ℚ := mkRat 3602879701896397 18014398509481984

/-- Store with a source balance of 1e16 and a destination balance of 0.5,
both exactly representable doubles. -/
def xferBank : Bank :=
  ⟨[("1000000001",
     { account_number := "1000000001", name := "Big", balance := 10000000000000000,
       password_hash := "pw", created_date := "T0", status := "active" }),
    ("1000000002",
     { account_number := "1000000002", name := "Small", balance := mkRat 1 2,
       password_hash := "pw2", created_date := "T0", status := "active" })], []⟩

/-- Store with one account whose balance is the double nearest 0.1. -/
def rtBank : Bank :=
  ⟨[("1000000001",
     { account_number := "1000000001", name := "Alice", balance := dbl01,
       password_hash := "pw", created_date := "T0", status := "active" })], []⟩

/-! Association-list lemmas for the account mapping. -/

theorem lookupAcc_setAcc_self (l : Accounts) (key : String) (v : Account) :
    lookupAcc (setAcc l key v) key = some v := by
  induction l with
  | nil => simp [setAcc, lookupAcc]
  | cons p rest ih =>
    by_cases h : p.1 = key
    · simp [setAcc, h, lookupAcc]
    · simp [setAcc, h, lookupAcc, ih]

theorem lookupAcc_setAcc_ne (l : Accounts) (key other : String) (v : Account)
    (h : other ≠ key) : lookupAcc (setAcc l key v) other = lookupAcc l other := by
  induction l with
  | nil => simp [setAcc, lookupAcc, Ne.symm h]
  | cons p rest ih =>
    obtain ⟨k, w⟩ := p
    by_cases hp : k = key
    · simp [setAcc, hp, lookupAcc, Ne.symm h]
    · simp [setAcc, hp, lookupAcc, ih]

theorem mem_of_lookupAcc {l : Accounts} {key : String} {a : Account}
    (h : lookupAcc l key = some a) : (key, a) ∈ l := by
  induction l with
  | nil => simp [lookupAcc] at h
  | cons p rest ih =>
    obtain ⟨k, w⟩ := p
    by_cases hp : k = key
    · rw [lookupAcc, if_pos hp] at h
      injection h with h2
      subst hp
      subst h2
      exact List.mem_cons_self _ _
    · rw [lookupAcc, if_neg hp] at h
      exact List.mem_cons_of_mem _ (ih h)

theorem mem_setAcc {l : Accounts} {key : String} {v : Account} {p : String × Account}
    (h : p ∈ setAcc l key v) : p = (key, v) ∨ p ∈ l := by
  induction l with
  | nil => simpa [setAcc] using h
  | cons q rest ih =>
    by_cases hq : q.1 = key
    · rw [setAcc, if_pos hq] at h
      rcases List.mem_cons.mp h with h | h
      · exact Or.inl h
      · exact Or.inr (List.mem_cons_of_mem _ h)
    · rw [setAcc, if_neg hq] at h
      rcases List.mem_cons.mp h with h | h
      · exact Or.inr (h ▸ List.mem_cons_self _ _)
      · rcases ih h with h | h
        · exact Or.inl h
        · exact Or.inr (List.mem_cons_of_mem _ h)

theorem lookupAcc_eq_none_iff (l : Accounts) (key : String) :
    lookupAcc l key = none ↔ key ∉ l.map Prod.fst := by
  induction l with
  | nil => simp [lookupAcc]
  | cons p rest ih =>
    by_cases hp : p.1 = key
    · simp [lookupAcc, hp]
    · simp [lookupAcc, hp, ih, Ne.symm hp]

theorem memAcc_true_iff (l : Accounts) (key : String) :
    memAcc l key = true ↔ key ∈ l.map Prod.fst := by
  rw [memAcc, Option.isSome_iff_ne_none]
  simp [lookupAcc_eq_none_iff]

/-- C6: authenticate never raises and returns a boolean; it is false when the
account number is not a key of the account mapping, and otherwise it is true
exactly when the stored password hash equals the hash of the supplied
password. -/
theorem C6_authenticate_spec (hashPw : String → String) (b : Bank)
    (account_number password : String) :
    (lookupAcc b.accounts account_number = none →
      authenticate hashPw b account_number password = false) ∧
    (∀ a, lookupAcc b.accounts account_number = some a →
      (authenticate hashPw b account_number password = true ↔
        a.password_hash = hashPw password)) := by
  constructor
  · intro h
    simp [authenticate, h]
  · intro a h
    simp [authenticate, h]

/-- Witness for C6 at a concrete store: the stored password authenticates. -/
theorem C6_witness : authenticate idHash bank2 "1000000001" "pw" = true := by
  refine ((C6_authenticate_spec idHash bank2 "1000000001" "pw").2
    { account_number := "1000000001"
      name := "Alice"
      balance := 1000
      password_hash := "pw"
      created_date := "T1"
      status := "active" } (by decide)).mpr (by decide)

/-- C7: validation precedes authentication.  A non-positive amount makes
deposit and withdraw return the validation failure with the store unchanged,
whatever the credentials; a same-account transfer of a positive amount
returns the same-account failure with the store unchanged, whatever the
credentials. -/
theorem C7_validation_precedes_auth (hashPw : String → String) (b : Bank) :
    (∀ an amount pw desc ts d, amount ≤ 0 →
      deposit hashPw b an amount pw desc ts d =
        (.error "Deposit amount must be positive", b) ∧
      withdraw hashPw b an amount pw desc ts d =
        (.error "Withdrawal amount must be positive", b)) ∧
    (∀ fa amount pw desc ts1 d1 ts2 d2, 0 < amount →
      transfer hashPw b fa fa amount pw desc ts1 d1 ts2 d2 =
        (.error "Cannot transfer to the same account", b)) := by
  constructor
  · intro an amount pw desc ts d h
    constructor
    · simp [deposit, h]
    · simp [withdraw, h]
  · intro fa amount pw desc ts1 d1 ts2 d2 h
    simp [transfer, not_le.mpr h]

/-- Witness for C7: a zero deposit is rejected before credentials matter. -/
theorem C7_witness :
    deposit idHash bank1 "1000000001" 0 "wrongpassword" "x" "T" "D" =
      (.error "Deposit amount must be positive", bank1) :=
  (((C7_validation_precedes_auth idHash bank1).1 "1000000001" 0 "wrongpassword"
    "x" "T" "D" le_rfl).1)

/-- C10: the total_transactions field of get_transaction_history equals the
length of the returned truncated list; with a positive limit it never exceeds
the limit, even when the account owns more matching transactions. -/
theorem C10_total_transactions (hashPw : String → String) (b : Bank)
    (an pw : String) (limit : Int) (r : HistoryOk)
    (h : get_transaction_history hashPw b an pw limit = .ok r) :
    r.total_transactions = r.transactions.length ∧
    (0 < limit → (r.transactions.length : Int) ≤ limit) ∧
    (0 < limit →
      limit.toNat ≤ (b.transactions.filter (fun t => t.account_number == an)).length →
      r.total_transactions = limit.toNat) := by
  rw [get_transaction_history] at h
  split at h
  · exact absurd h (by simp)
  · rw [Except.ok.injEq] at h
    subst h
    refine ⟨rfl, ?_, ?_⟩
    · intro hl
      dsimp only
      rw [if_pos hl, List.length_take, List.length_mergeSort]
      have := Int.toNat_of_nonneg hl.le
      omega
    · intro hl hlen
      dsimp only
      rw [if_pos hl, List.length_take, List.length_mergeSort]
      omega

/-- Witness for C10 at a concrete store with eleven logged transactions. -/
theorem C10_witness :
    ∃ r, get_transaction_history idHash histBank "1000000001" "pw" 10 = .ok r ∧
      r.total_transactions = r.transactions.length ∧
      (r.transactions.length : Int) ≤ 10 := by
  refine ⟨_, rfl, ?_⟩
  have h := C10_total_transactions idHash histBank "1000000001" "pw" 10 _ rfl
  exact ⟨h.1, h.2.1 (by norm_num)⟩

/-! Unfolding equations for the mutating operations under their checks. -/

theorem deposit_eq_of (hashPw : String → String) (b : Bank) (an : String)
    (amount : Money) (pw desc ts d : String) (a : Account)
    (hpos : ¬ amount ≤ 0) (hauth : authenticate hashPw b an pw = true)
    (hlook : lookupAcc b.accounts an = some a) :
    deposit hashPw b an amount pw desc ts d =
      (.ok { account_number := an, transaction_type := "deposit", amount := amount,
             old_balance := a.balance, new_balance := a.balance + amount,
             status := "success" },
       { accounts := setAcc b.accounts an { a with balance := a.balance + amount },
         transactions := b.transactions ++
           [{ id := b.transactions.length + 1, account_number := an,
              transaction_type := "deposit", amount := amount, description := desc,
              related_account := some an, timestamp := ts, date := d }] }) := by
  rw [deposit, if_neg hpos, if_neg (not_not_intro hauth), hlook]
  rfl

theorem withdraw_eq_of (hashPw : String → String) (b : Bank) (an : String)
    (amount : Money) (pw desc ts d : String) (a : Account)
    (hpos : ¬ amount ≤ 0) (hauth : authenticate hashPw b an pw = true)
    (hlook : lookupAcc b.accounts an = some a) :
    withdraw hashPw b an amount pw desc ts d =
      (if a.balance < amount then (.error "Insufficient funds", b)
       else
        (.ok { account_number := an, transaction_type := "withdrawal", amount := amount,
               old_balance := a.balance, new_balance := a.balance - amount,
               status := "success" },
         { accounts := setAcc b.accounts an { a with balance := a.balance - amount },
           transactions := b.transactions ++
             [{ id := b.transactions.length + 1, account_number := an,
                transaction_type := "withdrawal", amount := amount, description := desc,
                related_account := some an, timestamp := ts, date := d }] })) := by
  rw [withdraw, if_neg hpos, if_neg (not_not_intro hauth), hlook]
  rfl

theorem transfer_eq_of (hashPw : String → String) (b : Bank) (fa ta : String)
    (amount : Money) (pw desc ts1 d1 ts2 d2 : String) (A B : Account)
    (hpos : ¬ amount ≤ 0) (hne : ¬ fa = ta)
    (hauth : authenticate hashPw b fa pw = true)
    (hlookf : lookupAcc b.accounts fa = some A)
    (hlookt : lookupAcc b.accounts ta = some B) :
    transfer hashPw b fa ta amount pw desc ts1 d1 ts2 d2 =
      (if A.balance < amount then (.error "Insufficient funds", b)
       else
        (.ok { from_account := fa, to_account := ta, amount := amount,
               from_old_balance := A.balance, from_new_balance := A.balance - amount,
               to_old_balance := B.balance, to_new_balance := B.balance + amount,
               status := "success" },
         _record_transaction
           (_record_transaction
             ⟨setAcc (setAcc b.accounts fa { A with balance := A.balance - amount })
                ta { B with balance := B.balance + amount }, b.transactions⟩
             fa "transfer_out" amount (desc ++ " to " ++ ta) (some ta) ts1 d1)
           ta "transfer_in" amount (desc ++ " from " ++ fa) (some fa) ts2 d2)) := by
  have hmem : ¬ memAcc b.accounts ta = false := by
    simp [memAcc, hlookt]
  rw [transfer, if_neg hpos, if_neg hne, if_neg (not_not_intro hauth),
    if_neg (by simpa using hmem), hlookf, hlookt]

/-- C3: once the account authenticates and the amount is positive, withdraw
fails with the insufficient-funds failure exactly when balance < amount, the
store is unchanged on that failure, and otherwise it subtracts the amount,
appends one withdrawal record, and reports the old and new balances. -/
theorem C3_withdraw_spec (hashPw : String → String) (b : Bank) (an : String)
    (a : Account) (amount : Money) (pw desc ts d : String)
    (hlook : lookupAcc b.accounts an = some a)
    (hauth : authenticate hashPw b an pw = true)
    (hpos : 0 < amount) :
    ((withdraw hashPw b an amount pw desc ts d).1 = .error "Insufficient funds" ↔
      a.balance < amount) ∧
    (a.balance < amount →
      withdraw hashPw b an amount pw desc ts d = (.error "Insufficient funds", b)) ∧
    (amount ≤ a.balance →
      withdraw hashPw b an amount pw desc ts d =
        (.ok { account_number := an, transaction_type := "withdrawal", amount := amount,
               old_balance := a.balance, new_balance := a.balance - amount,
               status := "success" },
         { accounts := setAcc b.accounts an { a with balance := a.balance - amount },
           transactions := b.transactions ++
             [{ id := b.transactions.length + 1, account_number := an,
                transaction_type := "withdrawal", amount := amount, description := desc,
                related_account := some an, timestamp := ts, date := d }] })) := by
  have he := withdraw_eq_of hashPw b an amount pw desc ts d a (not_le.mpr hpos) hauth hlook
  by_cases hb : a.balance < amount
  · rw [he, if_pos hb]
    exact ⟨by simp [hb], fun _ => rfl, fun hle => absurd hb (not_lt.mpr hle)⟩
  · rw [he, if_neg hb]
    exact ⟨by simp [hb], fun hlt => absurd hlt hb, fun _ => rfl⟩

/-- Witness for C3: the spec §8 scenario, withdrawing 2000 from balance 1000. -/
theorem C3_witness :
    withdraw idHash bank1 "1000000001" 2000 "pw" "W" "T" "D" =
      (.error "Insufficient funds", bank1) := by
  refine (C3_withdraw_spec idHash bank1 "1000000001"
    { account_number := "1000000001", name := "Alice", balance := 1000,
      password_hash := "pw", created_date := "T1", status := "active" }
    2000 "pw" "W" "T" "D" (by decide) (by decide) (by norm_num)).2.1 (by norm_num)

/-- C1 as amended: a transfer between distinct existing accounts,
authenticated by the source and covered by its balance, succeeds and appends
exactly the mirrored transfer_out and transfer_in records of equal amount,
in that order, tagged with each other as related account; the decrement of
the source, the increment of the destination and the preservation of their
sum are exact in the exact-rational model of the arithmetic, while the
source's IEEE-754 double arithmetic realizes them only up to rounding. -/
theorem C1_transfer_spec (hashPw : String → String) (b : Bank) (fa ta : String)
    (A B : Account) (amount : Money) (pw desc ts1 d1 ts2 d2 : String)
    (hlookf : lookupAcc b.accounts fa = some A)
    (hlookt : lookupAcc b.accounts ta = some B)
    (hne : fa ≠ ta)
    (hauth : authenticate hashPw b fa pw = true)
    (hpos : 0 < amount) (hbal : amount ≤ A.balance) :
    (transfer hashPw b fa ta amount pw desc ts1 d1 ts2 d2).1 =
      .ok { from_account := fa, to_account := ta, amount := amount,
            from_old_balance := A.balance, from_new_balance := A.balance - amount,
            to_old_balance := B.balance, to_new_balance := B.balance + amount,
            status := "success" } ∧
    lookupAcc (transfer hashPw b fa ta amount pw desc ts1 d1 ts2 d2).2.accounts fa =
      some { A with balance := A.balance - amount } ∧
    lookupAcc (transfer hashPw b fa ta amount pw desc ts1 d1 ts2 d2).2.accounts ta =
      some { B with balance := B.balance + amount } ∧
    (∀ A2 B2,
      lookupAcc (transfer hashPw b fa ta amount pw desc ts1 d1 ts2 d2).2.accounts fa =
        some A2 →
      lookupAcc (transfer hashPw b fa ta amount pw desc ts1 d1 ts2 d2).2.accounts ta =
        some B2 →
      A2.balance + B2.balance = A.balance + B.balance) ∧
    (transfer hashPw b fa ta amount pw desc ts1 d1 ts2 d2).2.transactions =
      b.transactions ++
        [{ id := b.transactions.length + 1, account_number := fa,
           transaction_type := "transfer_out", amount := amount,
           description := desc ++ " to " ++ ta, related_account := some ta,
           timestamp := ts1, date := d1 },
         { id := b.transactions.length + 2, account_number := ta,
           transaction_type := "transfer_in", amount := amount,
           description := desc ++ " from " ++ fa, related_account := some fa,
           timestamp := ts2, date := d2 }] := by
  have he := transfer_eq_of hashPw b fa ta amount pw desc ts1 d1 ts2 d2 A B
    (not_le.mpr hpos) hne hauth hlookf hlookt
  rw [he, if_neg (not_lt.mpr hbal)]
  dsimp only [_record_transaction]
  have hfa : lookupAcc
      (setAcc (setAcc b.accounts fa { A with balance := A.balance - amount })
        ta { B with balance := B.balance + amount }) fa =
      some { A with balance := A.balance - amount } := by
    rw [lookupAcc_setAcc_ne _ _ _ _ hne, lookupAcc_setAcc_self]
  have hta : lookupAcc
      (setAcc (setAcc b.accounts fa { A with balance := A.balance - amount })
        ta { B with balance := B.balance + amount }) ta =
      some { B with balance := B.balance + amount } :=
    lookupAcc_setAcc_self _ _ _
  refine ⟨rfl, hfa, hta, ?_, ?_⟩
  · intro A2 B2 h1 h2
    rw [hfa] at h1
    rw [hta] at h2
    injection h1 with h1
    injection h2 with h2
    subst h1
    subst h2
    ring
  · show (b.transactions ++ _) ++ _ = _
    simp [List.length_append]

/-- Witness for C1: the spec §8 scenario, moving 150 from Alice to Bob. -/
theorem C1_witness :
    (transfer idHash bank2 "1000000001" "1000000002" 150 "pw" "Transfer"
        "T3" "D3" "T4" "D4").1 =
      .ok { from_account := "1000000001", to_account := "1000000002", amount := 150,
            from_old_balance := 1000, from_new_balance := 850,
            to_old_balance := 500, to_new_balance := 650,
            status := "success" } := by
  have h := (C1_transfer_spec idHash bank2 "1000000001" "1000000002"
    { account_number := "1000000001", name := "Alice", balance := 1000,
      password_hash := "pw", created_date := "T1", status := "active" }
    { account_number := "1000000002", name := "Bob", balance := 500,
      password_hash := "pw2", created_date := "T2", status := "active" }
    150 "pw" "Transfer" "T3" "D3" "T4" "D4"
    (by decide) (by decide) (by decide) (by decide) (by norm_num) (by norm_num)).1
  rw [h]
  norm_num

/-- C1 counterexample: under the source's IEEE-754 double arithmetic the
transfer of 1.0 out of a balance of 1e16 succeeds, yet the stored source
balance does not decrease at all, because 1e16 - 1.0 rounds back to 1e16;
the sum of the two balances therefore grows by 1.  The exact decrement and
sum preservation asserted by the claim fail on the program. -/
theorem C1_float_counterexample :
    (transferF idHash xferBank "1000000001" "1000000002" 1 "pw" "T"
        "t1" "e1" "t2" "e2").1 =
      .ok { from_account := "1000000001", to_account := "1000000002", amount := 1,
            from_old_balance := 10000000000000000,
            from_new_balance := 10000000000000000,
            to_old_balance := mkRat 1 2, to_new_balance := mkRat 3 2,
            status := "success" } ∧
    lookupAcc (transferF idHash xferBank "1000000001" "1000000002" 1 "pw" "T"
        "t1" "e1" "t2" "e2").2.accounts "1000000001" =
      some { account_number := "1000000001", name := "Big",
             balance := 10000000000000000, password_hash := "pw",
             created_date := "T0", status := "active" } ∧
    (10000000000000000 : ℚ) - 1 ≠ 10000000000000000 := by
  refine ⟨rfl, by decide, by norm_num⟩

/-- C8 as amended: for an authenticated account with a non-negative balance,
depositing a positive amount and then withdrawing the same amount both
succeed and restore the stored balance exactly in the exact-rational model
of the arithmetic; under the source's IEEE-754 doubles the restoration is
only up to rounding. -/
theorem C8_deposit_then_withdraw (hashPw : String → String) (b : Bank)
    (an : String) (a : Account) (amount : Money)
    (pw desc1 desc2 ts1 d1 ts2 d2 : String)
    (hlook : lookupAcc b.accounts an = some a)
    (hauth : authenticate hashPw b an pw = true)
    (hpos : 0 < amount) (hnn : 0 ≤ a.balance) :
    (∃ r1, (deposit hashPw b an amount pw desc1 ts1 d1).1 = .ok r1 ∧
      r1.old_balance = a.balance) ∧
    (∃ r2, (withdraw hashPw (deposit hashPw b an amount pw desc1 ts1 d1).2
        an amount pw desc2 ts2 d2).1 = .ok r2 ∧
      r2.new_balance = a.balance) ∧
    (∃ a2, lookupAcc (withdraw hashPw (deposit hashPw b an amount pw desc1 ts1 d1).2
        an amount pw desc2 ts2 d2).2.accounts an = some a2 ∧
      a2.balance = a.balance) := by
  have hd := deposit_eq_of hashPw b an amount pw desc1 ts1 d1 a
    (not_le.mpr hpos) hauth hlook
  have hbeq : (a.password_hash == hashPw pw) = true := by
    rw [authenticate, hlook] at hauth
    exact hauth
  have hlook1 : lookupAcc (deposit hashPw b an amount pw desc1 ts1 d1).2.accounts an =
      some { a with balance := a.balance + amount } := by
    rw [hd]
    exact lookupAcc_setAcc_self _ _ _
  have hauth1 : authenticate hashPw (deposit hashPw b an amount pw desc1 ts1 d1).2
      an pw = true := by
    rw [authenticate, hlook1]
    exact hbeq
  have hw := withdraw_eq_of hashPw (deposit hashPw b an amount pw desc1 ts1 d1).2
    an amount pw desc2 ts2 d2 { a with balance := a.balance + amount }
    (not_le.mpr hpos) hauth1 hlook1
  have hnolow : ¬ ({ a with balance := a.balance + amount } : Account).balance < amount := by
    dsimp only
    linarith
  rw [hw, if_neg hnolow]
  refine ⟨⟨_, by rw [hd], rfl⟩, ⟨_, rfl, ?_⟩, ⟨_, lookupAcc_setAcc_self _ _ _, ?_⟩⟩
  · dsimp only
    ring
  · dsimp only
    ring

/-- Witness for C8: deposit then withdraw 250 restores the balance 1000. -/
theorem C8_witness :
    ∃ a2, lookupAcc (withdraw idHash
        (deposit idHash bank1 "1000000001" 250 "pw" "Dep" "T5" "D5").2
        "1000000001" 250 "pw" "Wd" "T6" "D6").2.accounts "1000000001" = some a2 ∧
      a2.balance = 1000 := by
  have h := (C8_deposit_then_withdraw idHash bank1 "1000000001"
    { account_number := "1000000001", name := "Alice", balance := 1000,
      password_hash := "pw", created_date := "T1", status := "active" }
    250 "pw" "Dep" "Wd" "T5" "D5" "T6" "D6"
    (by decide) (by decide) (by norm_num) (by norm_num)).2.2
  exact h

/-- C8 counterexample: with balance 0.1 and amount 0.2 (the doubles the
source actually stores for those inputs) the deposit and the withdrawal
both succeed, yet the final balance is 0.10000000000000003, not 0.1: the
exact round trip asserted by the claim fails on the program's double
arithmetic. -/
theorem C8_float_counterexample :
    (depositF idHash rtBank "1000000001" dbl02 "pw" "D" "t1" "e1").1 =
      .ok { account_number := "1000000001", transaction_type := "deposit",
            amount := dbl02, old_balance := dbl01,
            new_balance := mkRat 5404319552844596 18014398509481984,
            status := "success" } ∧
    (withdrawF idHash (depositF idHash rtBank "1000000001" dbl02 "pw" "D"
        "t1" "e1").2 "1000000001" dbl02 "pw" "W" "t2" "e2").1 =
      .ok { account_number := "1000000001", transaction_type := "withdrawal",
            amount := dbl02, old_balance := mkRat 5404319552844596 18014398509481984,
            new_balance := mkRat 1801439850948199 18014398509481984,
            status := "success" } ∧
    lookupAcc (withdrawF idHash (depositF idHash rtBank "1000000001" dbl02 "pw"
        "D" "t1" "e1").2 "1000000001" dbl02 "pw" "W" "t2" "e2").2.accounts
        "1000000001" =
      some { account_number := "1000000001", name := "Alice",
             balance := mkRat 1801439850948199 18014398509481984,
             password_hash := "pw", created_date := "T0", status := "active" } ∧
    mkRat 1801439850948199 18014398509481984 ≠ dbl01 := by
  refine ⟨rfl, rfl, by decide, by decide⟩

/-! Preservation of the non-negative-balance invariant by each operation. -/

theorem balNonneg_create (hashPw : String → String) (b : Bank) (name : String)
    (dep : Money) (pw cd ts d : String) (h : BalancesNonneg b) :
    BalancesNonneg (create_account hashPw b name dep pw cd ts d).2 := by
  rw [create_account]
  split
  next => exact h
  next hdep =>
    intro p hp
    dsimp only at hp
    rw [apply_ite Bank.accounts] at hp
    dsimp only [_record_transaction] at hp
    rw [ite_self] at hp
    rcases mem_setAcc hp with rfl | hp2
    · dsimp only
      linarith [not_lt.mp hdep]
    · exact h p hp2

theorem balNonneg_deposit (hashPw : String → String) (b : Bank) (an : String)
    (amount : Money) (pw desc ts d : String) (h : BalancesNonneg b) :
    BalancesNonneg (deposit hashPw b an amount pw desc ts d).2 := by
  rw [deposit]
  split
  next => exact h
  next hamt =>
    split
    next => exact h
    next =>
      split
      next => exact h
      next account heq =>
        intro p hp
        dsimp only [_record_transaction] at hp
        rcases mem_setAcc hp with rfl | hp2
        · have h0 := h _ (mem_of_lookupAcc heq)
          dsimp only at h0 ⊢
          linarith [not_le.mp hamt]
        · exact h p hp2

theorem balNonneg_withdraw (hashPw : String → String) (b : Bank) (an : String)
    (amount : Money) (pw desc ts d : String) (h : BalancesNonneg b) :
    BalancesNonneg (withdraw hashPw b an amount pw desc ts d).2 := by
  rw [withdraw]
  split
  next => exact h
  next hamt =>
    split
    next => exact h
    next =>
      split
      next => exact h
      next account heq =>
        split
        next => exact h
        next hbal =>
          intro p hp
          dsimp only [_record_transaction] at hp
          rcases mem_setAcc hp with rfl | hp2
          · dsimp only
            linarith [not_lt.mp hbal]
          · exact h p hp2

theorem balNonneg_transfer (hashPw : String → String) (b : Bank) (fa ta : String)
    (amount : Money) (pw desc ts1 d1 ts2 d2 : String) (h : BalancesNonneg b) :
    BalancesNonneg (transfer hashPw b fa ta amount pw desc ts1 d1 ts2 d2).2 := by
  rw [transfer]
  split
  next => exact h
  next hamt =>
    split
    next => exact h
    next =>
      split
      next => exact h
      next =>
        split
        next => exact h
        next =>
          split
          next from_acc to_acc heqf heqt =>
            split
            next => exact h
            next hbal =>
              intro p hp
              dsimp only [_record_transaction] at hp
              rcases mem_setAcc hp with rfl | hp2
              · have h0 := h _ (mem_of_lookupAcc heqt)
                dsimp only at h0 ⊢
                linarith [not_le.mp hamt]
              · rcases mem_setAcc hp2 with rfl | hp3
                · dsimp only
                  linarith [not_lt.mp hbal]
                · exact h p hp3
          next => exact h

/-- C2: every balance in every reachable store state is non-negative; the
invariant is preserved by create_account, deposit, withdraw and transfer. -/
theorem C2_balances_nonneg (hashPw : String → String) (b : Bank)
    (h : Reachable hashPw b) : BalancesNonneg b := by
  induction h with
  | init => intro p hp; simp at hp
  | create b name dep pw cd ts d _ ih => exact balNonneg_create hashPw b name dep pw cd ts d ih
  | dep b an amt pw desc ts d _ ih => exact balNonneg_deposit hashPw b an amt pw desc ts d ih
  | wd b an amt pw desc ts d _ ih => exact balNonneg_withdraw hashPw b an amt pw desc ts d ih
  | xfer b fa ta amt pw desc ts1 d1 ts2 d2 _ ih =>
    exact balNonneg_transfer hashPw b fa ta amt pw desc ts1 d1 ts2 d2 ih

/-- Witness for C2 at a concrete reachable state built by two creations. -/
theorem C2_witness : BalancesNonneg bank2 :=
  C2_balances_nonneg idHash bank2
    (Reachable.create _ _ _ _ _ _ _
      (Reachable.create _ _ _ _ _ _ _ Reachable.init))

/-! Preservation of sequential transaction ids by each operation. -/

theorem idsSeq_record (b : Bank) (an ty : String) (amt : Money) (desc : String)
    (rel : Option String) (ts d : String) (h : IdsSequential b) :
    IdsSequential (_record_transaction b an ty amt desc rel ts d) := by
  intro i hi
  dsimp only [_record_transaction] at hi ⊢
  simp only [List.get_eq_getElem]
  rcases lt_or_ge i b.transactions.length with h2 | h2
  · rw [List.getElem_append_left h2]
    have h3 := h i h2
    simpa using h3
  · have hlen : i = b.transactions.length := by
      simp only [List.length_append, List.length_cons, List.length_nil] at hi
      omega
    subst hlen
    rw [List.getElem_append_right h2]
    simp

theorem idsSeq_create (hashPw : String → String) (b : Bank) (name : String)
    (dep : Money) (pw cd ts d : String) (h : IdsSequential b) :
    IdsSequential (create_account hashPw b name dep pw cd ts d).2 := by
  rw [create_account]
  split
  next => exact h
  next =>
    dsimp only
    split
    next => exact idsSeq_record _ _ _ _ _ _ _ _ h
    next => exact h

theorem idsSeq_deposit (hashPw : String → String) (b : Bank) (an : String)
    (amount : Money) (pw desc ts d : String) (h : IdsSequential b) :
    IdsSequential (deposit hashPw b an amount pw desc ts d).2 := by
  rw [deposit]
  split
  next => exact h
  next =>
    split
    next => exact h
    next =>
      split
      next => exact h
      next => exact idsSeq_record _ _ _ _ _ _ _ _ h

theorem idsSeq_withdraw (hashPw : String → String) (b : Bank) (an : String)
    (amount : Money) (pw desc ts d : String) (h : IdsSequential b) :
    IdsSequential (withdraw hashPw b an amount pw desc ts d).2 := by
  rw [withdraw]
  split
  next => exact h
  next =>
    split
    next => exact h
    next =>
      split
      next => exact h
      next =>
        split
        next => exact h
        next => exact idsSeq_record _ _ _ _ _ _ _ _ h

theorem idsSeq_transfer (hashPw : String → String) (b : Bank) (fa ta : String)
    (amount : Money) (pw desc ts1 d1 ts2 d2 : String) (h : IdsSequential b) :
    IdsSequential (transfer hashPw b fa ta amount pw desc ts1 d1 ts2 d2).2 := by
  rw [transfer]
  split
  next => exact h
  next =>
    split
    next => exact h
    next =>
      split
      next => exact h
      next =>
        split
        next => exact h
        next =>
          split
          next =>
            split
            next => exact h
            next =>
              dsimp only
              exact idsSeq_record _ _ _ _ _ _ _ _ (idsSeq_record _ _ _ _ _ _ _ _ h)
          next => exact h

theorem reachable_idsSequential (hashPw : String → String) (b : Bank)
    (h : Reachable hashPw b) : IdsSequential b := by
  induction h with
  | init => intro i hi; simp at hi
  | create b name dep pw cd ts d _ ih => exact idsSeq_create hashPw b name dep pw cd ts d ih
  | dep b an amt pw desc ts d _ ih => exact idsSeq_deposit hashPw b an amt pw desc ts d ih
  | wd b an amt pw desc ts d _ ih => exact idsSeq_withdraw hashPw b an amt pw desc ts d ih
  | xfer b fa ta amt pw desc ts1 d1 ts2 d2 _ ih =>
    exact idsSeq_transfer hashPw b fa ta amt pw desc ts1 d1 ts2 d2 ih

/-- C9: in every reachable store state, transaction ids are positive, unique
within the log, and strictly increasing by log position. -/
theorem C9_transaction_ids (hashPw : String → String) (b : Bank)
    (h : Reachable hashPw b) :
    (∀ i (hi : i < b.transactions.length), 0 < (b.transactions.get ⟨i, hi⟩).id) ∧
    (∀ i j (hi : i < b.transactions.length) (hj : j < b.transactions.length),
      i < j → (b.transactions.get ⟨i, hi⟩).id < (b.transactions.get ⟨j, hj⟩).id) ∧
    (∀ i j (hi : i < b.transactions.length) (hj : j < b.transactions.length),
      i ≠ j → (b.transactions.get ⟨i, hi⟩).id ≠ (b.transactions.get ⟨j, hj⟩).id) := by
  have hseq := reachable_idsSequential hashPw b h
  refine ⟨?_, ?_, ?_⟩
  · intro i hi
    rw [hseq i hi]
    omega
  · intro i j hi hj hij
    rw [hseq i hi, hseq j hj]
    omega
  · intro i j hi hj hij
    rw [hseq i hi, hseq j hj]
    omega

/-- Witness for C9 at a concrete reachable state with one logged entry. -/
theorem C9_witness : 0 < (bank1.transactions.get ⟨0, by decide⟩).id :=
  (C9_transaction_ids idHash bank1
    (Reachable.create _ _ _ _ _ _ _ Reachable.init)).1 0 (by decide)

/-! Decimal account-number strings: injectivity and the first-free scan. -/

theorem digitChar_inj {a b : Nat} (ha : a < 10) (hb : b < 10)
    (h : digitChar a = digitChar b) : a = b := by
  interval_cases a <;> interval_cases b <;> revert h <;> decide

theorem map_digitChar_inj : ∀ {l1 l2 : List Nat}, (∀ x ∈ l1, x < 10) →
    (∀ x ∈ l2, x < 10) → l1.map digitChar = l2.map digitChar → l1 = l2
  | [], [], _, _, _ => rfl
  | [], _ :: _, _, _, h => by simp at h
  | _ :: _, [], _, _, h => by simp at h
  | x :: l1, y :: l2, h1, h2, h => by
    simp only [List.map_cons, List.cons.injEq] at h
    have hx := digitChar_inj (h1 x (by simp)) (h2 y (by simp)) h.1
    have hl := map_digitChar_inj (fun z hz => h1 z (by simp [hz]))
      (fun z hz => h2 z (by simp [hz])) h.2
    simp [hx, hl]

theorem toDigitsRev_eq (fuel : Nat) : ∀ n : Nat, n ≤ fuel →
    toDigitsRev fuel n = Nat.digits 10 n := by
  induction fuel with
  | zero =>
    intro n h
    have h0 : n = 0 := by omega
    subst h0
    simp [toDigitsRev]
  | succ f ih =>
    intro n h
    rw [toDigitsRev]
    by_cases h0 : n = 0
    · simp [h0]
    · rw [if_neg h0]
      have hdiv : n / 10 ≤ f := by
        have := Nat.div_lt_self (Nat.pos_of_ne_zero h0) (by norm_num : 1 < 10)
        omega
      rw [ih (n / 10) hdiv, Nat.digits_def' (by norm_num : 1 < 10) (Nat.pos_of_ne_zero h0)]

theorem natToStr_inj_pos {m n : Nat} (hm : 0 < m) (hn : 0 < n)
    (h : natToStr m = natToStr n) : m = n := by
  rw [natToStr, natToStr, if_neg (by omega : ¬ m = 0), if_neg (by omega : ¬ n = 0)] at h
  rw [toDigitsRev_eq m m le_rfl, toDigitsRev_eq n n le_rfl] at h
  have hd : (Nat.digits 10 m).reverse.map digitChar =
      (Nat.digits 10 n).reverse.map digitChar := by
    have h2 := congrArg String.data h
    simpa [List.asString] using h2
  have hrev : (Nat.digits 10 m).reverse = (Nat.digits 10 n).reverse :=
    map_digitChar_inj
      (fun x hx => Nat.digits_lt_base (by norm_num) (List.mem_reverse.mp hx))
      (fun x hx => Nat.digits_lt_base (by norm_num) (List.mem_reverse.mp hx)) hd
  have hdig : Nat.digits 10 m = Nat.digits 10 n := by
    have h3 := congrArg List.reverse hrev
    simpa using h3
  have h4 := congrArg (Nat.ofDigits 10) hdig
  rw [Nat.ofDigits_digits, Nat.ofDigits_digits] at h4
  exact_mod_cast h4

theorem exists_unused (accounts : Accounts) :
    ∃ i, i ≤ accounts.length ∧
      memAcc accounts (natToStr (accountNumberBase + i)) = false := by
  by_contra hc
  push_neg at hc
  have hmem : ∀ i ≤ accounts.length,
      natToStr (accountNumberBase + i) ∈ accounts.map Prod.fst := by
    intro i hi
    have h1 := hc i hi
    have h2 : memAcc accounts (natToStr (accountNumberBase + i)) = true := by
      simpa using h1
    exact (memAcc_true_iff _ _).mp h2
  have hcard := Finset.card_le_card_of_injOn
    (fun i => natToStr (accountNumberBase + i))
    (fun i hi => List.mem_toFinset.mpr
      (hmem i (Nat.le_of_lt_succ (Finset.mem_range.mp hi))))
    (fun i hi j hj hEq => by
      have hbase : (0 : Nat) < accountNumberBase := by unfold accountNumberBase; omega
      have := natToStr_inj_pos (by omega) (by omega) hEq
      omega)
  rw [Finset.card_range] at hcard
  have hle := List.toFinset_card_le (accounts.map Prod.fst)
  rw [List.length_map] at hle
  omega

theorem genAccountNumFrom_spec (accounts : Accounts) : ∀ (fuel n : Nat),
    (∃ i, i ≤ fuel ∧ memAcc accounts (natToStr (n + i)) = false) →
    ∃ k, genAccountNumFrom accounts fuel n = natToStr (n + k) ∧
      memAcc accounts (natToStr (n + k)) = false ∧
      ∀ j < k, memAcc accounts (natToStr (n + j)) = true := by
  intro fuel
  induction fuel with
  | zero =>
    intro n h
    obtain ⟨i, hi, hfree⟩ := h
    have h0 : i = 0 := by omega
    subst h0
    refine ⟨0, by simp [genAccountNumFrom], by simpa using hfree, by omega⟩
  | succ f ih =>
    intro n h
    rw [genAccountNumFrom]
    by_cases hm : memAcc accounts (natToStr n) = true
    · rw [if_pos hm]
      have h2 : ∃ i, i ≤ f ∧ memAcc accounts (natToStr (n + 1 + i)) = false := by
        obtain ⟨i, hi, hfree⟩ := h
        cases i with
        | zero =>
          rw [Nat.add_zero] at hfree
          rw [hfree] at hm
          cases hm
        | succ i2 =>
          refine ⟨i2, by omega, ?_⟩
          rw [show n + 1 + i2 = n + (i2 + 1) by omega]
          exact hfree
      obtain ⟨k, hk1, hk2, hk3⟩ := ih (n + 1) h2
      refine ⟨k + 1, ?_, ?_, ?_⟩
      · rw [hk1]
        congr 1
        omega
      · rw [show n + (k + 1) = n + 1 + k by omega]
        exact hk2
      · intro j hj
        cases j with
        | zero => simpa using hm
        | succ j2 =>
          rw [show n + (j2 + 1) = n + 1 + j2 by omega]
          exact hk3 j2 (by omega)
    · rw [if_neg hm]
      refine ⟨0, by simp, by simpa using hm, by omega⟩

theorem generate_account_number_spec (accounts : Accounts) :
    ∃ k, _generate_account_number accounts = natToStr (accountNumberBase + k) ∧
      memAcc accounts (natToStr (accountNumberBase + k)) = false ∧
      ∀ j < k, memAcc accounts (natToStr (accountNumberBase + j)) = true := by
  obtain ⟨i, hi, hfree⟩ := exists_unused accounts
  exact genAccountNumFrom_spec accounts (accounts.length + 1) accountNumberBase
    ⟨i, by omega, hfree⟩

theorem create_account_eq (hashPw : String → String) (b : Bank) (name : String)
    (dep : Money) (pw cd ts d : String) (hdep : ¬ dep < 0) :
    create_account hashPw b name dep pw cd ts d =
      (.ok { account_number := _generate_account_number b.accounts, name := name,
             balance := dep, status := "Account created successfully" },
       if dep > 0 then
         _record_transaction
           ⟨setAcc b.accounts (_generate_account_number b.accounts)
             { account_number := _generate_account_number b.accounts, name := name,
               balance := dep, password_hash := hashPw pw, created_date := cd,
               status := "active" }, b.transactions⟩
           (_generate_account_number b.accounts) "deposit" dep "Initial deposit"
           (some (_generate_account_number b.accounts)) ts d
       else
         ⟨setAcc b.accounts (_generate_account_number b.accounts)
           { account_number := _generate_account_number b.accounts, name := name,
             balance := dep, password_hash := hashPw pw, created_date := cd,
             status := "active" }, b.transactions⟩) := by
  rw [create_account, if_neg hdep]

/-- C4: create_account rejects a negative initial deposit with the store
unchanged; otherwise it assigns the first unused decimal number scanning
upward from the base 1000000001, stores the account with balance equal to
the initial deposit and only the hash of the password, and appends exactly
one deposit record described as the initial deposit and related to the new
account itself precisely when the initial deposit is positive. -/
theorem C4_create_account_spec (hashPw : String → String) (b : Bank)
    (name : String) (dep : Money) (pw cd ts d : String) :
    (dep < 0 → create_account hashPw b name dep pw cd ts d =
      (.error "Initial deposit cannot be negative", b)) ∧
    (¬ dep < 0 →
      (∃ k, _generate_account_number b.accounts = natToStr (accountNumberBase + k) ∧
        memAcc b.accounts (natToStr (accountNumberBase + k)) = false ∧
        ∀ j < k, memAcc b.accounts (natToStr (accountNumberBase + j)) = true) ∧
      (create_account hashPw b name dep pw cd ts d).1 =
        .ok { account_number := _generate_account_number b.accounts, name := name,
              balance := dep, status := "Account created successfully" } ∧
      (∃ a, lookupAcc (create_account hashPw b name dep pw cd ts d).2.accounts
          (_generate_account_number b.accounts) = some a ∧
        a.balance = dep ∧ a.password_hash = hashPw pw) ∧
      (0 < dep → (create_account hashPw b name dep pw cd ts d).2.transactions =
        b.transactions ++
          [{ id := b.transactions.length + 1,
             account_number := _generate_account_number b.accounts,
             transaction_type := "deposit", amount := dep,
             description := "Initial deposit",
             related_account := some (_generate_account_number b.accounts),
             timestamp := ts, date := d }]) ∧
      (dep = 0 → (create_account hashPw b name dep pw cd ts d).2.transactions =
        b.transactions)) := by
  constructor
  · intro hd
    rw [create_account, if_pos hd]
  · intro hdep
    have he := create_account_eq hashPw b name dep pw cd ts d hdep
    refine ⟨generate_account_number_spec b.accounts, by rw [he], ?_, ?_, ?_⟩
    · rw [he]
      dsimp only
      rw [apply_ite Bank.accounts]
      dsimp only [_record_transaction]
      rw [ite_self]
      exact ⟨_, lookupAcc_setAcc_self _ _ _, rfl, rfl⟩
    · intro hpos
      rw [he]
      dsimp only
      rw [if_pos hpos]
      rfl
    · intro h0
      rw [he]
      dsimp only
      rw [if_neg (by rw [h0]; exact lt_irrefl 0)]

/-- Witness for C4: creating an account on the empty store with deposit 5. -/
theorem C4_witness :
    (create_account idHash bank0 "Alice" 5 "pw" "T" "T" "D").1 =
      .ok { account_number := _generate_account_number bank0.accounts,
            name := "Alice", balance := 5,
            status := "Account created successfully" } :=
  ((C4_create_account_spec idHash bank0 "Alice" 5 "pw" "T" "T" "D").2
    (by norm_num)).2.1

/-! Transitivity and totality of the descending-timestamp comparison. -/

theorem tsDesc_trans : ∀ a b c : Transaction, tsDesc a b → tsDesc b c → tsDesc a c := by
  intro a b c hab hbc
  simp only [tsDesc, decide_eq_true_eq] at hab hbc ⊢
  exact le_trans hbc hab

theorem tsDesc_total : ∀ a b : Transaction, tsDesc a b || tsDesc b a := by
  intro a b
  simp only [tsDesc, Bool.or_eq_true, decide_eq_true_eq]
  exact le_total b.timestamp a.timestamp

/-- C5 counterexample: the limit argument of get_transaction_history
defaults to 10, so a call that omits it on an account owning eleven
matching transactions is truncated to ten entries, not left untruncated. -/
theorem C5_counterexample :
    (histBank.transactions.filter (fun t => t.account_number == "1000000001")).length
      = 11 ∧
    ∃ r, get_transaction_history idHash histBank "1000000001" "pw" limitDefault =
        .ok r ∧
      r.transactions.length = 10 := by
  constructor
  · decide
  · refine ⟨_, rfl, ?_⟩
    dsimp only
    rw [if_pos (by decide : limitDefault > 0), List.length_take, List.length_mergeSort]
    decide

/-- C5 as amended: for an authenticated account, the history contains only
that account's transactions, is sorted by timestamp descending, equals the
stable mergeSort of the filtered log truncated to limit entries when
limit > 0 and a permutation of the whole filtered log when limit ≤ 0, and
the sort is stable: each class of equal timestamps keeps its original
append order.  (An omitted limit defaults to 10 and therefore truncates.) -/
theorem C5_history_spec (hashPw : String → String) (b : Bank) (an pw : String)
    (limit : Int) (r : HistoryOk)
    (h : get_transaction_history hashPw b an pw limit = .ok r) :
    (∀ t ∈ r.transactions, t.account_number = an) ∧
    r.transactions.Pairwise (fun x y => y.timestamp ≤ x.timestamp) ∧
    (0 < limit → r.transactions =
      ((b.transactions.filter (fun t => t.account_number == an)).mergeSort tsDesc).take
        limit.toNat) ∧
    (limit ≤ 0 → List.Perm r.transactions
      (b.transactions.filter (fun t => t.account_number == an))) ∧
    (∀ T : String,
      ((b.transactions.filter (fun t => t.account_number == an)).mergeSort
          tsDesc).filter (fun t => t.timestamp == T) =
        (b.transactions.filter (fun t => t.account_number == an)).filter
          (fun t => t.timestamp == T)) := by
  rw [get_transaction_history] at h
  split at h
  · exact absurd h (by simp)
  · rw [Except.ok.injEq] at h
    subst h
    dsimp only
    have hsorted : ((b.transactions.filter
        (fun t => t.account_number == an)).mergeSort tsDesc).Pairwise
        (fun x y => y.timestamp ≤ x.timestamp) := by
      have hp := List.sorted_mergeSort tsDesc_trans tsDesc_total
        (b.transactions.filter (fun t => t.account_number == an))
      exact hp.imp (fun hab => by simpa [tsDesc, decide_eq_true_eq] using hab)
    refine ⟨?_, ?_, fun hl => by rw [if_pos hl], ?_, ?_⟩
    · intro t ht
      have hmem : t ∈ (b.transactions.filter
          (fun t => t.account_number == an)).mergeSort tsDesc := by
        split at ht
        · exact List.mem_of_mem_take ht
        · exact ht
      have hfil := List.mem_mergeSort.mp hmem
      simpa using (List.mem_filter.mp hfil).2
    · split
      · exact hsorted.sublist (List.take_sublist _ _)
      · exact hsorted
    · intro hl
      rw [if_neg (not_lt.mpr hl)]
      exact List.mergeSort_perm _ _
    · intro T
      have hfs : ((b.transactions.filter (fun t => t.account_number == an)).filter
          (fun t => t.timestamp == T)).filter (fun t => t.timestamp == T) =
          (b.transactions.filter (fun t => t.account_number == an)).filter
            (fun t => t.timestamp == T) :=
        List.filter_eq_self.mpr (fun a ha => (List.mem_filter.mp ha).2)
      have hpair : ((b.transactions.filter (fun t => t.account_number == an)).filter
          (fun t => t.timestamp == T)).Pairwise (fun a b => tsDesc a b) := by
        refine List.pairwise_of_forall_mem_list ?_
        intro a ha c hc
        have ha2 : a.timestamp = T := by simpa using (List.mem_filter.mp ha).2
        have hc2 : c.timestamp = T := by simpa using (List.mem_filter.mp hc).2
        simp [tsDesc, ha2, hc2]
      have hsl : ((b.transactions.filter (fun t => t.account_number == an)).filter
          (fun t => t.timestamp == T)).Sublist
          ((b.transactions.filter (fun t => t.account_number == an)).mergeSort
            tsDesc) :=
        List.sublist_mergeSort tsDesc_trans tsDesc_total hpair (List.filter_sublist _)
      have hsl2 := hsl.filter (fun t => t.timestamp == T)
      rw [hfs] at hsl2
      have hperm := (List.mergeSort_perm
        (b.transactions.filter (fun t => t.account_number == an)) tsDesc).filter
        (fun t => t.timestamp == T)
      exact (hsl2.eq_of_length hperm.length_eq.symm).symm

/-- Witness for the amended C5: with limit 0 the whole filtered log of the
concrete store is returned, up to order. -/
theorem C5_witness :
    ∃ r, get_transaction_history idHash histBank "1000000001" "pw" 0 = .ok r ∧
      List.Perm r.transactions
        (histBank.transactions.filter (fun t => t.account_number == "1000000001")) := by
  refine ⟨_, rfl, ?_⟩
  exact (C5_history_spec idHash histBank "1000000001" "pw" 0 _ rfl).2.2.2.1 le_rfl

end DummyBank
